import Mathlib

/-!
Verification of the quilt command-line client (`quilt/tools/command.py`,
`quilt/tools/util.py`).

The Python code is shallowly embedded: pure helpers become Lean functions
over `List Char` / `String`, effectful functions become functions over an
explicit world/environment record that carries the auth file contents, the
current time, and the responses the network oracle would return.  Network
traffic is counted explicitly so that "no network call is made" claims can
be stated as equations on the call counter.
-/

set_option autoImplicit false

namespace Quilt

/-! ### Python `str.split(sep)` on a single-character separator

`"a/b/c".split('/') == ["a","b","c"]`, `"".split('/') == [""]`,
`"/".split('/') == ["", ""]`: the result always has one more element than
the number of separators in the input, and empty pieces are kept. -/

def splitOn (sep : Char) : List Char → List (List Char)
  | [] => [[]]
  | c :: cs =>
    if c = sep then [] :: splitOn sep cs
    else
      match splitOn sep cs with
      | [] => [[c]]
      | p :: ps => (c :: p) :: ps

theorem splitOn_ne_nil (sep : Char) (l : List Char) : splitOn sep l ≠ [] := by
  cases l with
  | nil => simp [splitOn]
  | cons c cs =>
    simp only [splitOn]
    split
    · simp
    · split
      · simp
      · simp

theorem length_splitOn (sep : Char) (l : List Char) :
    (splitOn sep l).length = l.count sep + 1 := by
  induction l with
  | nil => simp [splitOn]
  | cons c cs ih =>
    simp only [splitOn]
    by_cases h : c = sep
    · subst h
      simp [List.count_cons, ih]
    · rw [if_neg h]
      rcases hs : splitOn sep cs with _ | ⟨p, ps⟩
      · exact absurd hs (splitOn_ne_nil sep cs)
      · have := ih
        rw [hs] at this
        simp only [List.length_cons] at this ⊢
        rw [List.count_cons]
        simp [h]
        omega

/-- `splitOn` returns the whole input as a single piece exactly when the
separator does not occur in it. -/
theorem splitOn_eq_single_iff (sep : Char) (l : List Char) :
    splitOn sep l = [l] ↔ sep ∉ l := by
  induction l with
  | nil => simp [splitOn]
  | cons c cs ih =>
    simp only [splitOn]
    by_cases h : c = sep
    · subst h
      simp only [if_pos rfl]
      constructor
      · intro hcontra
        exact absurd (List.cons_eq_cons.mp hcontra).1 (by simp)
      · intro hmem
        exact absurd (List.mem_cons_self c cs) hmem
    · rw [if_neg h]
      rcases hs : splitOn sep cs with _ | ⟨p, ps⟩
      · exact absurd hs (splitOn_ne_nil sep cs)
      · show (c :: p) :: ps = [c :: cs] ↔ sep ∉ c :: cs
        constructor
        · intro heq
          obtain ⟨hp, hps⟩ := List.cons_eq_cons.mp heq
          have hpcs : p = cs := (List.cons_eq_cons.mp hp).2
          have hone : splitOn sep cs = [cs] := by rw [hs, hps, hpcs]
          have hnot := ih.mp hone
          intro hmem
          rcases List.mem_cons.mp hmem with hceq | hc
          · exact h hceq.symm
          · exact hnot hc
        · intro hmem
          have hcs : sep ∉ cs := fun hc => hmem (List.mem_cons_of_mem c hc)
          have hone : splitOn sep cs = [cs] := ih.mpr hcs
          rw [hs] at hone
          obtain ⟨hp, hps⟩ := List.cons_eq_cons.mp hone
          rw [hp, hps]

theorem splitOn_append (sep : Char) (a b : List Char) (ha : sep ∉ a) :
    splitOn sep (a ++ sep :: b) = a :: splitOn sep b := by
  induction a with
  | nil => simp [splitOn]
  | cons c a' ih =>
    have hc : ¬c = sep := fun hcs => ha (hcs ▸ List.mem_cons_self c a')
    have ha' : sep ∉ a' := fun hmem => ha (List.mem_cons_of_mem c hmem)
    simp only [List.cons_append, splitOn, if_neg hc, List.append_eq, ih ha']

theorem splitOn_eq_single (sep : Char) (l x : List Char)
    (h : splitOn sep l = [x]) : l = x ∧ sep ∉ l := by
  induction l generalizing x with
  | nil =>
    simp only [splitOn] at h
    obtain ⟨hx, -⟩ := List.cons_eq_cons.mp h
    exact ⟨hx, by simp⟩
  | cons c cs ih =>
    by_cases hc : c = sep
    · subst hc
      simp only [splitOn, if_pos rfl] at h
      obtain ⟨-, hnil⟩ := List.cons_eq_cons.mp h
      exact absurd hnil (splitOn_ne_nil c cs)
    · simp only [splitOn, if_neg hc] at h
      rcases hs : splitOn sep cs with _ | ⟨p, ps⟩
      · exact absurd hs (splitOn_ne_nil sep cs)
      · rw [hs] at h
        obtain ⟨hcp, hps⟩ := List.cons_eq_cons.mp h
        have hsp : splitOn sep cs = [p] := by rw [hs, hps]
        obtain ⟨hcs, hnot⟩ := ih p hsp
        constructor
        · rw [← hcp, hcs]
        · intro hmem
          rcases List.mem_cons.mp hmem with hceq | hcc
          · exact hc hceq.symm
          · exact hnot hcc

theorem splitOn_eq_pair (sep : Char) (l a b : List Char) :
    splitOn sep l = [a, b] ↔ l = a ++ sep :: b ∧ sep ∉ a ∧ sep ∉ b := by
  constructor
  · intro h
    induction l generalizing a with
    | nil => simp [splitOn] at h
    | cons c cs ih =>
      by_cases hc : c = sep
      · subst hc
        simp only [splitOn, if_pos rfl] at h
        obtain ⟨ha, hb⟩ := List.cons_eq_cons.mp h
        obtain ⟨hcs, hnot⟩ := splitOn_eq_single c cs b hb
        refine ⟨?_, ?_, ?_⟩
        · rw [← ha, hcs]; rfl
        · rw [← ha]; simp
        · rw [← hcs]; exact hnot
      · simp only [splitOn, if_neg hc] at h
        rcases hs : splitOn sep cs with _ | ⟨p, ps⟩
        · exact absurd hs (splitOn_ne_nil sep cs)
        · rw [hs] at h
          obtain ⟨hcp, hps⟩ := List.cons_eq_cons.mp h
          have hsp : splitOn sep cs = [p, b] := by rw [hs, hps]
          obtain ⟨hcseq, hpnot, hbnot⟩ := ih p hsp
          refine ⟨?_, ?_, hbnot⟩
          · rw [← hcp, hcseq]; rfl
          · rw [← hcp]
            intro hmem
            rcases List.mem_cons.mp hmem with hceq | hcc
            · exact hc hceq.symm
            · exact hpnot hcc
  · rintro ⟨rfl, ha, hb⟩
    rw [splitOn_append sep a b ha, (splitOn_eq_single_iff sep b).mpr hb]

/-! ### `_parse_package` (`command.py`)

```python
def _parse_package(name):
    try:
        owner, pkg = name.split('/')
        if not owner or not pkg:
            raise ValueError
    except ValueError:
        raise CommandException("Specify package as owner/package_name.")
    return owner, pkg
```

The tuple unpacking raises `ValueError` unless the split yields exactly two
pieces; an empty piece also raises, and both paths surface the same
`CommandException`. -/

def parseErrMsg : String := "Specify package as owner/package_name."

def parsePackage (name : List Char) : Except String (List Char × List Char) :=
  match splitOn '/' name with
  | [owner, pkg] =>
    if owner = [] ∨ pkg = [] then Except.error parseErrMsg
    else Except.ok (owner, pkg)
  | _ => Except.error parseErrMsg

example : parsePackage "a/b".toList = Except.ok ("a".toList, "b".toList) := rfl
example : parsePackage "a//b".toList = Except.error parseErrMsg := rfl
example : parsePackage "/b".toList = Except.error parseErrMsg := rfl
example : parsePackage "ab".toList = Except.error parseErrMsg := rfl

/-- C1: `_parse_package` succeeds exactly on strings with exactly one `'/'`
separating two non-empty halves.  On success it returns the two halves, so
rejoining them with `'/'` reproduces the original string; on every input that
lacks exactly one `'/'`, or whose unique decomposition around `'/'` has an
empty half, it fails with the `ParseError` message. -/
theorem parse_package_correct (name : List Char) :
    match parsePackage name with
    | Except.ok (owner, pkg) =>
        owner ++ '/' :: pkg = name ∧ owner.isEmpty = false ∧ pkg.isEmpty = false ∧
          name.count '/' = 1
    | Except.error msg =>
        msg = parseErrMsg ∧
          (name.count '/' ≠ 1 ∨ ∃ a b, name = a ++ '/' :: b ∧ (a = [] ∨ b = [])) := by
  have hlen := length_splitOn '/' name
  rcases hs : splitOn '/' name with _ | ⟨a, rest⟩
  · exact absurd hs (splitOn_ne_nil '/' name)
  · rcases rest with _ | ⟨b, rest2⟩
    · -- a single piece: no separator at all
      have hcount : name.count '/' = 0 := by
        rw [hs] at hlen; simpa using hlen.symm
      simp only [parsePackage, hs]
      exact ⟨trivial, Or.inl (by omega)⟩
    · rcases rest2 with _ | ⟨c, rest3⟩
      · -- exactly two pieces
        obtain ⟨hname, ha, hb⟩ := (splitOn_eq_pair '/' name a b).mp hs
        have hcount : name.count '/' = 1 := by
          rw [hs] at hlen; simpa using hlen.symm
        simp only [parsePackage, hs]
        by_cases hemp : a = [] ∨ b = []
        · rw [if_pos hemp]
          exact ⟨rfl, Or.inr ⟨a, b, hname, hemp⟩⟩
        · rw [if_neg hemp]
          push_neg at hemp
          refine ⟨hname.symm, ?_, ?_, hcount⟩
          · simpa [List.isEmpty_iff] using hemp.1
          · simpa [List.isEmpty_iff] using hemp.2
      · -- three or more pieces: more than one separator
        have hcount : 2 ≤ name.count '/' := by
          rw [hs] at hlen
          simp only [List.length_cons] at hlen
          omega
        simp only [parsePackage, hs]
        exact ⟨trivial, Or.inl (by omega)⟩

/-- Closed instance of `parse_package_correct` at the concrete package string
`"a/b"`. -/
theorem parse_package_correct_witness :
    ['a'] ++ '/' :: ['b'] = ['a', '/', 'b'] ∧
      (['a'] : List Char).isEmpty = false ∧ (['b'] : List Char).isEmpty = false ∧
      (['a', '/', 'b'] : List Char).count '/' = 1 :=
  parse_package_correct ['a', '/', 'b']

/-! ### Credential records and the token refresh exchange (`command.py`)

The auth file holds a single JSON object
`{refresh_token, access_token, expires_at}`.  `_update_auth` POSTs the
refresh token to the registry's token endpoint and fails with
`CommandException` on a non-200 status or an `error` field in the body. -/

structure Auth where
  refresh_token : String
  access_token : String
  expires_at : Int
  deriving Repr, DecidableEq

/-- The registry's answer to `POST /api/token`, as `_update_auth` consumes it:
the HTTP status code and the fields it reads out of the JSON body. -/
structure TokenResp where
  status : Nat
  error : Option String
  refresh_token : String
  access_token : String
  expires_at : Int
  deriving Repr, DecidableEq

/-- `_update_auth(refresh_token)`: one `requests.post` to the token endpoint;
non-200 status or a present `error` field raise `CommandException`, otherwise
the three token fields of the body become the new credential record. -/
def updateAuth (resp : TokenResp) : Except String Auth :=
  if resp.status ≠ 200 then
    Except.error ("Authentication error: " ++ toString resp.status)
  else
    match resp.error with
    | some e => Except.error ("Failed to log in: " ++ e)
    | none => Except.ok ⟨resp.refresh_token, resp.access_token, resp.expires_at⟩

/-- `updateAuth` fails exactly when the response status is not 200 or the body
carries an `error` field. -/
theorem updateAuth_error_iff (resp : TokenResp) :
    (∃ msg, updateAuth resp = Except.error msg) ↔
      (resp.status ≠ 200 ∨ resp.error ≠ none) := by
  unfold updateAuth
  by_cases hs : resp.status = 200
  · rcases he : resp.error with _ | e
    · simp [hs, he]
    · simp [hs, he]
  · simp [hs]

/-! ### `create_session` (`command.py`)

The effectful context is a `World`: the contents of the auth file (if any),
the current wall-clock time, and the oracle giving the response a token
refresh would receive.  `createSession` returns the session or error, the
resulting world, and the number of refresh network calls performed. -/

structure World where
  authFile : Option Auth
  now : Int
  tokenResp : TokenResp
  deriving Repr, DecidableEq

/-- A session as `create_session` builds it: its outgoing request headers.
(The response hook installed on the session is modelled separately by
`handleResponse`.) -/
structure Session where
  headers : List (String × String)
  deriving Repr, DecidableEq

def baseHeaders : List (String × String) :=
  [("Content-Type", "application/json"), ("Accept", "application/json")]

/-- The headers `create_session` leaves on the session: the JSON
Content-Type/Accept pair, plus a bearer token when a credential record is in
hand. -/
def mkSession (auth : Option Auth) : Session :=
  { headers :=
      baseHeaders ++
        match auth with
        | none => []
        | some a => [("Authorization", "Bearer " ++ a.access_token)] }

structure SessionResult where
  result : Except String Session
  world : World
  refreshCalls : Nat
  deriving Repr

/-- `create_session()`: reads the auth file if present; refreshes the token
(one network call) when `expires_at < now + 60`, persisting the new record on
success and wrapping the `CommandException` on failure; then builds the
session with the appropriate headers.  A missing auth file means an anonymous
session and no network traffic. -/
def createSession (w : World) : SessionResult :=
  match w.authFile with
  | none => ⟨Except.ok (mkSession none), w, 0⟩
  | some auth =>
    if auth.expires_at < w.now + 60 then
      match updateAuth w.tokenResp with
      | Except.error e =>
        ⟨Except.error
            ("Failed to update the access token (" ++ e ++ "). Run `quilt login` again."),
          w, 1⟩
      | Except.ok auth2 =>
        ⟨Except.ok (mkSession (some auth2)), { w with authFile := some auth2 }, 1⟩
    else
      ⟨Except.ok (mkSession (some auth)), w, 0⟩

/-- C2: with a stored record expiring within 60 seconds of now,
`create_session` performs exactly one refresh call; when that refresh fails
(non-200 status or an `error` field in the body) `create_session` fails with
the auth error and the stale record on disk is left untouched. -/
theorem createSession_refresh_failure (w : World) (auth : Auth)
    (hfile : w.authFile = some auth)
    (hexp : auth.expires_at < w.now + 60) :
    (createSession w).refreshCalls = 1 ∧
      ((w.tokenResp.status ≠ 200 ∨ w.tokenResp.error ≠ none) →
        (∃ msg, (createSession w).result = Except.error msg) ∧
          (createSession w).world.authFile = some auth) := by
  have heq : createSession w =
      (match updateAuth w.tokenResp with
        | Except.error e =>
          ⟨Except.error
              ("Failed to update the access token (" ++ e ++ "). Run `quilt login` again."),
            w, 1⟩
        | Except.ok auth2 =>
          ⟨Except.ok (mkSession (some auth2)), { w with authFile := some auth2 }, 1⟩) := by
    unfold createSession
    rw [hfile]
    exact if_pos hexp
  rw [heq]
  rcases hu : updateAuth w.tokenResp with e | auth2
  · exact ⟨rfl, fun _ => ⟨⟨_, rfl⟩, hfile⟩⟩
  · refine ⟨rfl, fun hfail => ?_⟩
    obtain ⟨msg, hmsg⟩ := (updateAuth_error_iff w.tokenResp).mpr hfail
    rw [hu] at hmsg
    exact absurd hmsg (by simp)

/-- Closed instance of `createSession_refresh_failure`: a record expiring now,
against a refresh oracle answering 401. -/
theorem createSession_refresh_failure_witness :
    (createSession ⟨some ⟨"r", "a", 100⟩, 100, ⟨401, none, "", "", 0⟩⟩).refreshCalls = 1 ∧
      (((401 : Nat) ≠ 200 ∨ (none : Option String) ≠ none) →
        (∃ msg,
            (createSession ⟨some ⟨"r", "a", 100⟩, 100, ⟨401, none, "", "", 0⟩⟩).result =
              Except.error msg) ∧
          (createSession ⟨some ⟨"r", "a", 100⟩, 100, ⟨401, none, "", "", 0⟩⟩).world.authFile =
            some ⟨"r", "a", 100⟩) :=
  createSession_refresh_failure ⟨some ⟨"r", "a", 100⟩, 100, ⟨401, none, "", "", 0⟩⟩
    ⟨"r", "a", 100⟩ rfl (by norm_num)

/-- C3: with a stored record whose expiry is more than 60 seconds in the
future, `create_session` makes no network call, leaves the world untouched
and returns a session whose `Authorization` header carries the stored access
token unchanged. -/
theorem createSession_fresh_token (w : World) (auth : Auth)
    (hfile : w.authFile = some auth)
    (hexp : w.now + 60 < auth.expires_at) :
    (createSession w).refreshCalls = 0 ∧
      (createSession w).world = w ∧
      (createSession w).result = Except.ok (mkSession (some auth)) ∧
      (mkSession (some auth)).headers.lookup "Authorization" =
        some ("Bearer " ++ auth.access_token) := by
  have hnot : ¬auth.expires_at < w.now + 60 := by omega
  have heq : createSession w = ⟨Except.ok (mkSession (some auth)), w, 0⟩ := by
    unfold createSession
    rw [hfile]
    exact if_neg hnot
  rw [heq]
  exact ⟨rfl, rfl, rfl, rfl⟩

/-- Closed instance of `createSession_fresh_token`: a record expiring far in
the future. -/
theorem createSession_fresh_token_witness :
    (createSession ⟨some ⟨"r", "tok", 1000⟩, 0, ⟨200, none, "", "", 0⟩⟩).refreshCalls = 0 ∧
      (createSession ⟨some ⟨"r", "tok", 1000⟩, 0, ⟨200, none, "", "", 0⟩⟩).world =
        ⟨some ⟨"r", "tok", 1000⟩, 0, ⟨200, none, "", "", 0⟩⟩ ∧
      (createSession ⟨some ⟨"r", "tok", 1000⟩, 0, ⟨200, none, "", "", 0⟩⟩).result =
        Except.ok (mkSession (some ⟨"r", "tok", 1000⟩)) ∧
      (mkSession (some ⟨"r", "tok", 1000⟩)).headers.lookup "Authorization" =
        some ("Bearer " ++ "tok") :=
  createSession_fresh_token ⟨some ⟨"r", "tok", 1000⟩, 0, ⟨200, none, "", "", 0⟩⟩
    ⟨"r", "tok", 1000⟩ rfl (by norm_num)

/-- C6: with no auth file on disk, `create_session` does not fail, makes no
network call, and returns a session carrying the JSON Content-Type and Accept
headers but no `Authorization` entry. -/
theorem createSession_anonymous (w : World)
    (hfile : w.authFile = none) :
    (createSession w).refreshCalls = 0 ∧
      ∃ s, (createSession w).result = Except.ok s ∧
        s.headers.lookup "Authorization" = none ∧
        s.headers.lookup "Content-Type" = some "application/json" ∧
        s.headers.lookup "Accept" = some "application/json" := by
  have heq : createSession w = ⟨Except.ok (mkSession none), w, 0⟩ := by
    unfold createSession
    rw [hfile]
  rw [heq]
  exact ⟨rfl, mkSession none, rfl, rfl, rfl, rfl⟩

/-- Closed instance of `createSession_anonymous`: the world with no auth
file. -/
theorem createSession_anonymous_witness :
    (createSession ⟨none, 0, ⟨200, none, "", "", 0⟩⟩).refreshCalls = 0 ∧
      ∃ s, (createSession ⟨none, 0, ⟨200, none, "", "", 0⟩⟩).result = Except.ok s ∧
        s.headers.lookup "Authorization" = none ∧
        s.headers.lookup "Content-Type" = some "application/json" ∧
        s.headers.lookup "Accept" = some "application/json" :=
  createSession_anonymous ⟨none, 0, ⟨200, none, "", "", 0⟩⟩ rfl

/-! ### The session response hook `_handle_response` (`command.py`)

```python
def _handle_response(resp, **kwargs):
    if resp.status_code == requests.codes.unauthorized:
        raise CommandException("Authentication failed. Run `quilt login` again.")
    elif not resp.ok:
        try:
            data = resp.json()
            raise CommandException(data['message'])
        except ValueError:
            raise CommandException("Unexpected failure: error %s" % resp.status_code)
```

`requests.Response.ok` is `not (400 <= status_code < 600)` (it is `False`
exactly when `raise_for_status` would raise).  `resp.json()` raises
`ValueError` when the body is not JSON; `data['message']` raises `KeyError`
(uncaught here) when the parsed body lacks a `message` key. -/

/-- An HTTP response as the hook inspects it: the status code, and the body
seen as `none` (not parseable as JSON) or `some m` (JSON whose optional
`message` field is `m`). -/
structure Resp where
  status : Nat
  body : Option (Option String)
  deriving Repr, DecidableEq

def authFailedMsg : String := "Authentication failed. Run `quilt login` again."

/-- What `_handle_response` does with a response. -/
inductive HookOutcome where
  | nothingRaised
  | cmdError (msg : String)
  | uncaughtKeyError
  deriving Repr, DecidableEq

/-- `requests.Response.ok`: `False` exactly for status codes in `[400, 600)`. -/
def respOk (status : Nat) : Bool := !(400 ≤ status && status < 600)

def handleResponse (r : Resp) : HookOutcome :=
  if r.status = 401 then HookOutcome.cmdError authFailedMsg
  else if respOk r.status then HookOutcome.nothingRaised
  else
    match r.body with
    | none => HookOutcome.cmdError ("Unexpected failure: error " ++ toString r.status)
    | some none => HookOutcome.uncaughtKeyError
    | some (some m) => HookOutcome.cmdError m

/-- C4 counterexample: a 302 response is not a 2xx status, yet the hook
raises nothing at all — it is not translated to a `RemoteError`, because the
code tests `resp.ok` (status < 400), not membership in the 2xx class. -/
theorem handle_response_302_raises_nothing :
    handleResponse ⟨302, none⟩ = HookOutcome.nothingRaised ∧
      ¬(200 ≤ 302 ∧ 302 < 300) := by
  exact ⟨rfl, by omega⟩

/-- C4 (amended): the hook translates a 401 into the re-login `AuthError`;
any status in `[400, 600)` other than 401 becomes a `RemoteError` carrying
the body's `message` field when the JSON body provides one, or the generic
message naming the status code when the body is not parseable; every status
outside `[400, 600)` (other than 401) raises nothing — in particular every
2xx response raises nothing. -/
theorem handle_response_amended (r : Resp) :
    (r.status = 401 → handleResponse r = HookOutcome.cmdError authFailedMsg) ∧
      (r.status ≠ 401 → 400 ≤ r.status → r.status < 600 →
        (r.body = none →
          handleResponse r =
            HookOutcome.cmdError ("Unexpected failure: error " ++ toString r.status)) ∧
        (∀ m, r.body = some (some m) → handleResponse r = HookOutcome.cmdError m)) ∧
      (r.status ≠ 401 → ¬(400 ≤ r.status ∧ r.status < 600) →
        handleResponse r = HookOutcome.nothingRaised) := by
  refine ⟨?_, ?_, ?_⟩
  · intro h401
    simp [handleResponse, h401]
  · intro h401 hlo hhi
    have hok : respOk r.status = false := by
      simp [respOk]
      omega
    constructor
    · intro hbody
      simp [handleResponse, h401, hok, hbody]
    · intro m hbody
      simp [handleResponse, h401, hok, hbody]
  · intro h401 hrange
    have hok : respOk r.status = true := by
      simp [respOk]
      omega
    simp [handleResponse, h401, hok]

/-- Closed instances of `handle_response_amended`: a 401, a 500 carrying a
JSON message, a 500 with an unparseable body, and a plain 200. -/
theorem handle_response_amended_witness :
    handleResponse ⟨401, none⟩ = HookOutcome.cmdError authFailedMsg ∧
      handleResponse ⟨500, some (some "boom")⟩ = HookOutcome.cmdError "boom" ∧
      handleResponse ⟨500, none⟩ =
        HookOutcome.cmdError ("Unexpected failure: error " ++ toString (500 : Nat)) ∧
      handleResponse ⟨200, none⟩ = HookOutcome.nothingRaised :=
  ⟨(handle_response_amended ⟨401, none⟩).1 rfl,
    ((handle_response_amended ⟨500, some (some "boom")⟩).2.1 (by decide) (by decide)
        (by decide)).2 "boom" rfl,
    ((handle_response_amended ⟨500, none⟩).2.1 (by decide) (by decide) (by decide)).1 rfl,
    (handle_response_amended ⟨200, none⟩).2.2 (by decide) (by decide)⟩

/-! ### `_save_auth` (`command.py`) as a sequence of filesystem effects

```python
def _save_auth(auth):
    if not os.path.exists(BASE_DIR):
        os.makedirs(BASE_DIR)
    file_path = os.path.join(BASE_DIR, AUTH_FILE_NAME)
    with open(file_path, 'w') as fd:
        os.chmod(file_path, stat.S_IRUSR | stat.S_IWUSR)
        json.dump(auth, fd)
```

`open(file_path, 'w')` truncates the auth file in place; only afterwards is
the new JSON written.  There is no temporary file and no rename. -/

inductive FsOp where
  | makedirs
  | openTrunc
  | chmod
  | writeContent (content : String)
  deriving Repr, DecidableEq

/-- The JSON text `json.dump` writes for a credential record. -/
def serializeAuth (a : Auth) : String :=
  "\x7b\"refresh_token\": \"" ++ a.refresh_token ++ "\", \"access_token\": \"" ++
    a.access_token ++ "\", \"expires_at\": " ++ toString a.expires_at ++ "\x7d"

/-- The effects `_save_auth` performs on the auth file, in program order. -/
def saveAuthTrace (dirsPresent : Bool) (auth : Auth) : List FsOp :=
  (if dirsPresent then [] else [FsOp.makedirs]) ++
    [FsOp.openTrunc, FsOp.chmod, FsOp.writeContent (serializeAuth auth)]

/-- Effect of one filesystem operation on the auth file's contents
(`none` = file absent). -/
def applyFsOp (file : Option String) : FsOp → Option String
  | FsOp.makedirs => file
  | FsOp.openTrunc => some ""
  | FsOp.chmod => file
  | FsOp.writeContent c => some c

def runFsOps (file : Option String) (ops : List FsOp) : Option String :=
  ops.foldl applyFsOp file

theorem serializeAuth_ne_empty (a : Auth) : (serializeAuth a == "") = false := by
  rw [beq_eq_false_iff_ne]
  intro h
  have hlen := congrArg String.length h
  rw [serializeAuth] at hlen
  simp only [String.length_append] at hlen
  have h1 : 0 < ("\x7b\"refresh_token\": \"" : String).length := by decide
  have h0 : ("" : String).length = 0 := rfl
  omega

/-- C5 counterexample: starting from a stored record `old`, crash
`_save_auth new` right after `open(file_path, 'w')` (after one effect of its
trace): the auth file now holds the empty string, which is neither the old
record nor the new one — the overwrite is not atomic. -/
theorem save_auth_not_atomic :
    runFsOps (some (serializeAuth ⟨"r0", "a0", 0⟩))
        ((saveAuthTrace true ⟨"r1", "a1", 1000⟩).take 1) = some "" ∧
      (serializeAuth ⟨"r0", "a0", 0⟩ == "") = false ∧
      (serializeAuth ⟨"r1", "a1", 1000⟩ == "") = false :=
  ⟨rfl, serializeAuth_ne_empty ⟨"r0", "a0", 0⟩, serializeAuth_ne_empty ⟨"r1", "a1", 1000⟩⟩

/-- C5 (amended): `_save_auth` overwrites the record in place — truncate,
chmod, write — with no temporary file and no rename; for every pair of old
and new records, a crash after the truncation and before the write leaves the
auth file holding the empty string, which is neither the serialized old
record nor the serialized new one. -/
theorem save_auth_truncates_in_place (oldA newA : Auth) (dirsPresent : Bool) :
    runFsOps (some (serializeAuth oldA))
        ((saveAuthTrace dirsPresent newA).take (if dirsPresent then 1 else 2)) = some "" ∧
      (serializeAuth oldA == "") = false ∧
      (serializeAuth newA == "") = false := by
  refine ⟨?_, serializeAuth_ne_empty oldA, serializeAuth_ne_empty newA⟩
  cases dirsPresent
  · rfl
  · rfl

/-! ### `push` and `install` (`command.py`)

Both commands first parse the package identifier, then consult the local
store, and only then talk to the registry through the session (whose response
hook is `handleResponse`).  The registry and store are oracles supplied in an
environment record; the second component of the result counts the network
requests issued (session calls and the raw upload `PUT`). -/

/-- How a command run ends: normal return, a `CommandException`, or an
exception the command does not catch (`KeyError`/`ValueError` escaping from
`response.json()[...]` accesses). -/
inductive Outcome where
  | ok
  | cmdError (msg : String)
  | uncaught
  deriving Repr, DecidableEq

/-- Issuing a request through the session: the response hook runs on the
response; `none` means control returns to the caller, `some o` means the hook
raised and the command ends with `o`. -/
def sessionCall (r : Resp) : Option Outcome :=
  match handleResponse r with
  | HookOutcome.nothingRaised => none
  | HookOutcome.cmdError m => some (Outcome.cmdError m)
  | HookOutcome.uncaughtKeyError => some Outcome.uncaught

/-- The oracles `push` consults: the local store entry and the registry's
responses, in the order the code would use them. -/
structure PushEnv where
  storeExists : Bool
  storeHash : String
  putPackageResp : Resp
  putPackageUploadUrl : Option String
  uploadStatus : Nat
  putTagResp : Resp
  deriving Repr, DecidableEq

/-- `push(session, package)`: parse, check the store, `PUT` the package
metadata, `PUT` the gzipped artifact to the upload URL (a raw request, no
hook; non-ok status raises `CommandException`), then `PUT` the "latest" tag.
The `Nat` counts network requests issued. -/
def pushCmd (package : List Char) (env : PushEnv) : Outcome × Nat :=
  match parsePackage package with
  | Except.error e => (Outcome.cmdError e, 0)
  | Except.ok (owner, pkg) =>
    if env.storeExists = false then
      (Outcome.cmdError
          ("Package " ++ String.mk owner ++ "/" ++ String.mk pkg ++ " not found."),
        0)
    else
      match sessionCall env.putPackageResp with
      | some o => (o, 1)
      | none =>
        match env.putPackageUploadUrl with
        | none => (Outcome.uncaught, 1)
        | some _ =>
          if respOk env.uploadStatus = false then
            (Outcome.cmdError ("Upload failed: error " ++ toString env.uploadStatus), 2)
          else
            match sessionCall env.putTagResp with
            | some o => (o, 3)
            | none => (Outcome.ok, 3)

/-- C7: when the local store has no entry for the (well-formed) package,
`push` fails with the store-not-found `CommandException` and issues no
network request at all. -/
theorem push_missing_store_no_network (package : List Char) (env : PushEnv)
    (owner pkg : List Char)
    (hp : parsePackage package = Except.ok (owner, pkg))
    (hs : env.storeExists = false) :
    pushCmd package env =
      (Outcome.cmdError
          ("Package " ++ String.mk owner ++ "/" ++ String.mk pkg ++ " not found."),
        0) := by
  unfold pushCmd
  rw [hp]
  simp only [hs, if_true]

/-- Closed instance of `push_missing_store_no_network` at the package
`"acme/missing"` with an empty local store. -/
theorem push_missing_store_no_network_witness :
    pushCmd "acme/missing".toList
        ⟨false, "", ⟨200, none⟩, none, 200, ⟨200, none⟩⟩ =
      (Outcome.cmdError
          ("Package " ++ String.mk "acme".toList ++ "/" ++ String.mk "missing".toList ++
            " not found."),
        0) :=
  push_missing_store_no_network "acme/missing".toList
    ⟨false, "", ⟨200, none⟩, none, 200, ⟨200, none⟩⟩ "acme".toList "missing".toList rfl rfl

/-- The oracles `install` consults: the local store entry, the user's answer
to the overwrite prompt, the registry's tag and package responses, and
whether the store's install step raises `StoreException`.  `tagHash`,
`pkgUrl` and `pkgHash` are the JSON fields the code reads; `none` models a
body from which the access would raise an uncaught error.

Modelled from the spec: `get_store(owner, pkg, mode='w')` (class
`PackageStore`, not part of the two source files) "may create containing
directories", idempotently; for a package that already exists locally its
directories exist, so the call leaves the store state unchanged.  It is
therefore not represented as a store mutation here. -/
structure InstallEnv where
  storeExists : Bool
  answer : String
  tagResp : Resp
  tagHash : Option String
  pkgResp : Resp
  pkgUrl : Option String
  pkgHash : Option String
  storeErr : Option String
  deriving Repr, DecidableEq

/-- The part of `install` after the overwrite prompt: resolve the tag, fetch
the package metadata, and run `store.install`.  The `Bool` records whether
`store.install` was invoked (the only store mutation in `install`). -/
def installFetch (env : InstallEnv) : Outcome × Nat × Bool :=
  match sessionCall env.tagResp with
  | some o => (o, 1, false)
  | none =>
    match env.tagHash with
    | none => (Outcome.uncaught, 1, false)
    | some _ =>
      match sessionCall env.pkgResp with
      | some o => (o, 2, false)
      | none =>
        match env.pkgUrl, env.pkgHash with
        | some _, some _ =>
          match env.storeErr with
          | some e => (Outcome.cmdError ("Failed to install the package: " ++ e), 2, true)
          | none => (Outcome.ok, 2, true)
        | _, _ => (Outcome.uncaught, 2, false)

/-- Python's `str.lower()` (character-wise lowercasing, as `install` applies
it to the overwrite answer). -/
def pyLower (s : String) : String := String.mk (s.data.map Char.toLower)

/-- `install(session, package)`: parse, open the store for writing, and when
the package is already installed ask for confirmation — any answer whose
lowercasing is not `"y"` returns at once.  Otherwise fetch and install. -/
def installCmd (package : List Char) (env : InstallEnv) : Outcome × Nat × Bool :=
  match parsePackage package with
  | Except.error e => (Outcome.cmdError e, 0, false)
  | Except.ok _ =>
    if env.storeExists then
      if pyLower env.answer ≠ "y" then (Outcome.ok, 0, false)
      else installFetch env
    else installFetch env

/-- C10: when the package is already installed and the lowercased overwrite
answer is anything but `"y"`, `install` returns immediately: success, no
registry request, and `store.install` never runs, so the local artifact and
store state are untouched. -/
theorem install_decline_no_effect (package : List Char) (env : InstallEnv)
    (owner pkg : List Char)
    (hp : parsePackage package = Except.ok (owner, pkg))
    (hs : env.storeExists = true)
    (ha : pyLower env.answer ≠ "y") :
    installCmd package env = (Outcome.ok, 0, false) := by
  unfold installCmd
  rw [hp]
  simp only [hs, if_true, if_pos ha]

/-- Closed instance of `install_decline_no_effect`: answering `"N"` for an
already-installed `"acme/widget"`. -/
theorem install_decline_no_effect_witness :
    installCmd "acme/widget".toList
        ⟨true, "N", ⟨200, none⟩, some "h", ⟨200, none⟩, some "u", some "h", none⟩ =
      (Outcome.ok, 0, false) :=
  install_decline_no_effect "acme/widget".toList
    ⟨true, "N", ⟨200, none⟩, some "h", ⟨200, none⟩, some "u", some "h", none⟩
    "acme".toList "widget".toList rfl rfl (by decide)

/-! ### `main` (`command.py`)

```python
    try:
        if kwargs.pop('need_session'):
            kwargs['session'] = create_session()
        func(**kwargs)
        return 0
    except CommandException as ex:
        print(ex, file=sys.stderr)
        return 1
    except requests.exceptions.ConnectionError as ex:
        print("Failed to connect: %s" % ex, file=sys.stderr)
```

After printing a `ConnectionError` the function falls off its end and
returns Python's `None`; `sys.exit(None)` — the conventional
console-script wrapper — means exit status 0. -/

/-- How the dispatched command (or the session creation preceding it)
ends. -/
inductive CmdRun where
  | success
  | cmdExn (msg : String)
  | connErr (msg : String)
  deriving Repr, DecidableEq

/-- The value `main` returns for each run outcome; `none` is Python's `None`
from falling off the end of the function. -/
def mainReturn : CmdRun → Option Nat
  | CmdRun.success => some 0
  | CmdRun.cmdExn _ => some 1
  | CmdRun.connErr _ => none

/-- `sys.exit` semantics for the value a console-script entry point returns:
an integer is the exit status, and `None` means success (status 0). -/
def sysExitCode : Option Nat → Nat
  | some n => n
  | none => 0

/-- C8 counterexample: on a `requests` `ConnectionError` `main` prints the
error and returns `None`, so the process exits with status 0 — not a
non-zero exit. -/
theorem main_connection_error_exits_zero :
    mainReturn (CmdRun.connErr "connection refused") = none ∧
      sysExitCode (mainReturn (CmdRun.connErr "connection refused")) = 0 :=
  ⟨rfl, rfl⟩

/-- C8 (amended): `main` returns 0 when the dispatched command succeeds and 1
on any `CommandException`; on a `requests` `ConnectionError` it prints the
error and returns `None` — no exit code, which the standard `sys.exit`
wrapper maps to status 0. -/
theorem main_exit_codes (msg : String) :
    mainReturn CmdRun.success = some 0 ∧
      mainReturn (CmdRun.cmdExn msg) = some 1 ∧
      mainReturn (CmdRun.connErr msg) = none ∧
      sysExitCode (mainReturn (CmdRun.connErr msg)) = 0 :=
  ⟨rfl, rfl, rfl, rfl⟩

/-! ### `FileWithReadProgress` (`util.py`)

Constructed from a path it opens the file itself (`_need_to_close = True`);
`close()` always closes the progress bar and closes the file exactly when it
was opened here; `__exit__` calls `close()` unconditionally, whether or not
the `with` block raised. -/

structure FWRP where
  fdOpen : Bool
  progressOpen : Bool
  needToClose : Bool
  progressUpdates : Nat
  deriving Repr, DecidableEq

/-- `FileWithReadProgress(path)`: the path branch of `__init__` opens the
file and remembers that it must close it. -/
def FWRP.initFromPath : FWRP :=
  { fdOpen := true, progressOpen := true, needToClose := true, progressUpdates := 0 }

/-- Operations a `with` body may perform on the wrapper. -/
inductive FileOp where
  | read (size : Int)
  | tell
  | seek (offset : Int) (whence : Nat)
  deriving Repr, DecidableEq

/-- `read` updates the progress bar; `tell`/`seek` only touch the file
position.  None of them opens or closes anything. -/
def FWRP.step (s : FWRP) : FileOp → FWRP
  | FileOp.read _ => { s with progressUpdates := s.progressUpdates + 1 }
  | FileOp.tell => s
  | FileOp.seek _ _ => s

def FWRP.runOps (s : FWRP) (ops : List FileOp) : FWRP :=
  ops.foldl FWRP.step s

/-- `close()`: closes the progress bar, and the file exactly when this
wrapper opened it. -/
def FWRP.close (s : FWRP) : FWRP :=
  { s with
    progressOpen := false
    fdOpen := if s.needToClose then false else s.fdOpen }

/-- `__exit__(exc_type, value, traceback)` calls `close()` regardless of
whether the body raised. -/
def FWRP.exitCtx (s : FWRP) (_raised : Bool) : FWRP := s.close

theorem FWRP.runOps_preserves (s : FWRP) (ops : List FileOp) :
    (s.runOps ops).fdOpen = s.fdOpen ∧ (s.runOps ops).progressOpen = s.progressOpen ∧
      (s.runOps ops).needToClose = s.needToClose := by
  induction ops generalizing s with
  | nil => exact ⟨rfl, rfl, rfl⟩
  | cons op ops ih =>
    cases op with
    | read sz =>
      simpa [FWRP.runOps, FWRP.step] using ih { s with progressUpdates := s.progressUpdates + 1 }
    | tell => simpa [FWRP.runOps, FWRP.step] using ih s
    | seek o w => simpa [FWRP.runOps, FWRP.step] using ih s

/-- C9: a wrapper constructed from a path closes both the progress display
and the underlying file handle when the `with` block exits, whatever the body
did and whether the block exits normally or with an exception. -/
theorem fwrp_exit_closes_all (ops : List FileOp) (raised : Bool) :
    ((FWRP.initFromPath.runOps ops).exitCtx raised).progressOpen = false ∧
      ((FWRP.initFromPath.runOps ops).exitCtx raised).fdOpen = false := by
  obtain ⟨-, -, hneed⟩ := FWRP.runOps_preserves FWRP.initFromPath ops
  refine ⟨rfl, ?_⟩
  show (if (FWRP.initFromPath.runOps ops).needToClose then false
      else (FWRP.initFromPath.runOps ops).fdOpen) = false
  rw [hneed]
  rfl

end Quilt
